import Mathlib

/-!
Shallow embedding of the wav2letter streaming ASR example
(`inference/examples/SimpleStreamingASRExample.cpp`) and of the
spec-described streaming beam-search decoder it drives.

The example's `main` (flag handling, file-open checks, token loading,
decoder-options deserialization, factory construction, stdin-vs-file
dispatch) is embedded directly from the source. The decoder core,
`DecoderFactory` internals and `audioStreamToWordsStream` live outside
the example file; where a claim depends on them they are modelled from
the specification, with scores as rationals (reals for the log-sum-exp
merge law) in place of the C++ floats.
-/

namespace W2L

/-- The gflags string flags declared by the example, with their field names
taken from the `DEFINE_string` declarations in the source. -/
structure Flags where
  input_files_base_path : String
  feature_module_file : String
  acoustic_module_file : String
  tokens_file : String
  lexicon_file : String
  input_audio_file : String
  silence_token : String
  language_model_file : String
  decoder_options_file : String
deriving DecidableEq

/-- The default flag values from the `DEFINE_string` declarations. -/
def defaultFlags : Flags :=
  { input_files_base_path := "."
    feature_module_file := "feature_extractor.bin"
    acoustic_module_file := "acoustic_model.bin"
    tokens_file := "tokens.txt"
    lexicon_file := "lexicon.txt"
    input_audio_file := ""
    silence_token := "_"
    language_model_file := "language_model.bin"
    decoder_options_file := "decoder_options.json" }

/-- A file name is a full (absolute) path when it begins with a path
separator. -/
def isFullPath (fileName : String) : Bool :=
  match fileName.data with
  | '/' :: _ => true
  | _ => false

/-- Modelled from the spec: `GetFullPath` (in `inference/examples/Util.h`,
not under src/). Per the flag description in the source, the base path "is
added as prefix to input files unless the input file is a full path". -/
def GetFullPath (fileName basePath : String) : String :=
  if isFullPath fileName then fileName else basePath ++ "/" ++ fileName

/-- `GetInputFileFullPath` from the example source: resolves a file name
against `FLAGS_input_files_base_path`. -/
def GetInputFileFullPath (flags : Flags) (fileName : String) : String :=
  GetFullPath fileName flags.input_files_base_path

/-- The feature-module open check in `main`: throws naming the feature
file's resolved path when the stream is not open. -/
def featureLoadCheck (readable : String → Bool) (flags : Flags) : Except String Unit :=
  if readable (GetInputFileFullPath flags flags.feature_module_file) then Except.ok ()
  else Except.error
    ("failed to open feature file=" ++
      GetInputFileFullPath flags flags.feature_module_file ++ " for reading")

/-- The acoustic-module open check in `main`. As in the source, the error
message appends the resolved path of `FLAGS_feature_module_file`, not of
the acoustic-module file that failed to open. -/
def acousticLoadCheck (readable : String → Bool) (flags : Flags) : Except String Unit :=
  if readable (GetInputFileFullPath flags flags.acoustic_module_file) then Except.ok ()
  else Except.error
    ("failed to open acoustic model file=" ++
      GetInputFileFullPath flags flags.feature_module_file ++ " for reading")

/-- The `getline` loop in `main`: each line of the tokens file is pushed
onto the `tokens` vector in order. -/
def loadTokensLoop (lines : List String) : List String :=
  lines.foldl (fun tokens line => tokens ++ [line]) []

/-- Modelled from the spec: the `Dictionary` is built inside
`DecoderFactory` (not under src/) "from an ordered token list
(line i → token id i)": each token is inserted in order and receives the
next consecutive id, starting from 0. -/
def buildDictionary (tokens : List String) : List (String × Nat) :=
  (tokens.foldl
    (fun (acc : List (String × Nat) × Nat) tok => (acc.1 ++ [(tok, acc.2)], acc.2 + 1))
    ([], 0)).1

/-- A JSON scalar as read by the cereal JSON archive: a number or a bool. -/
inductive JsonValue
  | jnum (q : ℚ)
  | jbool (b : Bool)
deriving DecidableEq

/-- A JSON object: named value pairs. -/
def JsonObject : Type := List (String × JsonValue)

/-- Name lookup in a JSON object, first binding wins. -/
def jsonLookup (j : JsonObject) (k : String) : Option JsonValue :=
  (j.find? (fun p => p.1 == k)).map (fun p => p.2)

/-- Reading a float-valued `make_nvp` entry: fails (throws) when the name
is absent or not numeric. -/
def readRat (j : JsonObject) (k : String) : Except String ℚ :=
  match jsonLookup j k with
  | some (JsonValue.jnum q) => Except.ok q
  | _ => Except.error ("provided NVP (" ++ k ++ ") not found")

/-- Reading an int-valued `make_nvp` entry. -/
def readInt (j : JsonObject) (k : String) : Except String Int :=
  match jsonLookup j k with
  | some (JsonValue.jnum q) =>
      if q.den = 1 then Except.ok q.num
      else Except.error ("provided NVP (" ++ k ++ ") not an integer")
  | _ => Except.error ("provided NVP (" ++ k ++ ") not found")

/-- Reading a bool-valued `make_nvp` entry. -/
def readBool (j : JsonObject) (k : String) : Except String Bool :=
  match jsonLookup j k with
  | some (JsonValue.jbool b) => Except.ok b
  | _ => Except.error ("provided NVP (" ++ k ++ ") not found")

/-- The decoder configuration consumed by the core, with exactly the ten
fields deserialized by `main` (`criterionType` is the enum's underlying
integer, as cereal serializes it). -/
structure DecoderOptions where
  beamSize : Int
  beamSizeToken : Int
  beamThreshold : ℚ
  lmWeight : ℚ
  wordScore : ℚ
  unkScore : ℚ
  silScore : ℚ
  eosScore : ℚ
  logAdd : Bool
  criterionType : Int
deriving DecidableEq

/-- The `cereal::JSONInputArchive` read in `main`: the ten named fields are
read in source order; a missing or ill-typed name throws. -/
def loadDecoderOptions (j : JsonObject) : Except String DecoderOptions := do
  let beamSize ← readInt j "beamSize"
  let beamSizeToken ← readInt j "beamSizeToken"
  let beamThreshold ← readRat j "beamThreshold"
  let lmWeight ← readRat j "lmWeight"
  let wordScore ← readRat j "wordScore"
  let unkScore ← readRat j "unkScore"
  let silScore ← readRat j "silScore"
  let eosScore ← readRat j "eosScore"
  let logAdd ← readBool j "logAdd"
  let criterionType ← readInt j "criterionType"
  Except.ok
    { beamSize := beamSize, beamSizeToken := beamSizeToken,
      beamThreshold := beamThreshold, lmWeight := lmWeight,
      wordScore := wordScore, unkScore := unkScore, silScore := silScore,
      eosScore := eosScore, logAdd := logAdd, criterionType := criterionType }

/-- A JSON object holding exactly the ten decoder-option fields. -/
def encodeDecoderOptions (o : DecoderOptions) : JsonObject :=
  [("beamSize", JsonValue.jnum o.beamSize),
   ("beamSizeToken", JsonValue.jnum o.beamSizeToken),
   ("beamThreshold", JsonValue.jnum o.beamThreshold),
   ("lmWeight", JsonValue.jnum o.lmWeight),
   ("wordScore", JsonValue.jnum o.wordScore),
   ("unkScore", JsonValue.jnum o.unkScore),
   ("silScore", JsonValue.jnum o.silScore),
   ("eosScore", JsonValue.jnum o.eosScore),
   ("logAdd", JsonValue.jbool o.logAdd),
   ("criterionType", JsonValue.jnum o.criterionType)]

/-- The trie smearing modes accepted by the `DecoderFactory`. -/
inductive SmearingMode
  | NONE
  | MAX
  | LOGADD
deriving DecidableEq

/-- The seven arguments of the single `DecoderFactory` constructor call. -/
structure DecoderFactoryArgs where
  tokensPath : String
  lexiconPath : String
  languageModelPath : String
  transitions : List ℚ
  smearingMode : SmearingMode
  silenceToken : String
  unkScoreOverride : ℚ
deriving DecidableEq

/-- The `DecoderFactory` construction in `main`: resolved token, lexicon and
language-model paths, an empty `transitions` vector ("unused for now"),
`SmearingMode::MAX`, the silence-token flag, and a literal `0` for the
unknown-word score override. -/
def mainDecoderFactoryArgs (flags : Flags) : DecoderFactoryArgs :=
  { tokensPath := GetInputFileFullPath flags flags.tokens_file
    lexiconPath := GetInputFileFullPath flags flags.lexicon_file
    languageModelPath := GetInputFileFullPath flags flags.language_model_file
    transitions := []
    smearingMode := SmearingMode.MAX
    silenceToken := flags.silence_token
    unkScoreOverride := 0 }

/-- One timestep's emission: per-token log-scores, index-aligned with
token ids. -/
def Emission : Type := List ℚ

/-- One streaming window's emissions: a list of timesteps. -/
def Window : Type := List (List ℚ)

/-- Modelled from the spec: the frozen decode context a `DecoderFactory`
provides to its sessions (factory internals are not under src/): the
silence-token id, the lexicon (each word with its pronunciation as a token
id sequence, the trie being the set of its prefixes), the language-model
scorer, and the numeric score-merge kernel selected by `logAdd` (the float
log-sum-exp kernel is abstract here; its law is stated over the reals
separately). -/
structure DecodeContext where
  silId : Nat
  lexicon : List (String × List Nat)
  lmScore : String → ℚ
  merge : Bool → ℚ → ℚ → ℚ

/-- Modelled from the spec: a beam hypothesis — its completed word
sequence (the history reachable through backpointers), its trie position
(the token ids of the current incomplete word, `[]` being the root), and
its accumulated score. -/
structure Hyp where
  words : List String
  node : List Nat
  score : ℚ
deriving DecidableEq

/-- The single empty root hypothesis the beam starts from: score 0, trie
root, no words. -/
def initialHyp : Hyp := { words := [], node := [], score := 0 }

/-- A node is in the lexicon trie when it is a prefix of some word's
pronunciation. -/
def inTrie (lexicon : List (String × List Nat)) (n : List Nat) : Bool :=
  lexicon.any (fun wp => n.isPrefixOf wp.2)

/-- Modelled from the spec: the candidate extensions of one hypothesis by
one non-silence token — (a) continue within the current word along the
trie, (b) close the current word and start a new one, applying
`lmWeight × languageModelScore + wordScore`. -/
def tokenExtensions (ctx : DecodeContext) (opts : DecoderOptions)
    (em : List ℚ) (h : Hyp) (t : Nat) : List Hyp :=
  let node2 := h.node ++ [t]
  let conts :=
    if inTrie ctx.lexicon node2 then
      [{ h with node := node2, score := h.score + em.getD t 0 }]
    else []
  let closes := ctx.lexicon.filterMap (fun wp =>
    if wp.2 = node2 then
      some { words := h.words ++ [wp.1], node := [],
             score := h.score + em.getD t 0 + opts.wordScore +
               opts.lmWeight * ctx.lmScore wp.1 }
    else none)
  conts ++ closes

/-- Modelled from the spec: all candidate extensions of one hypothesis at
one timestep — the silence extension (with `silScore` as an emission bias
toward the silence token) plus the token extensions. -/
def hypExtensions (ctx : DecodeContext) (opts : DecoderOptions)
    (em : List ℚ) (h : Hyp) : List Hyp :=
  { h with score := h.score + em.getD ctx.silId 0 + opts.silScore } ::
    ((List.range em.length).filter (fun t => t ≠ ctx.silId)).flatMap
      (tokenExtensions ctx opts em h)

/-- Score-descending stable insertion: an inserted hypothesis goes before
strictly lower scores and before equal scores of later-created hypotheses,
so the earlier-created hypothesis wins ties. -/
def insertHypOrdered (h : Hyp) : List Hyp → List Hyp
  | [] => [h]
  | h2 :: t => if h2.score ≤ h.score then h :: h2 :: t else h2 :: insertHypOrdered h t

/-- Score-descending stable sort of hypotheses. -/
def sortHyps (l : List Hyp) : List Hyp := l.foldr insertHypOrdered []

/-- Merging a candidate into the accumulated list: a candidate with the
same (trie position, word history) as an earlier one is combined by the
merge kernel; otherwise it is appended, keeping creation order. -/
def addCandidate (mergeFn : ℚ → ℚ → ℚ) (acc : List Hyp) (c : Hyp) : List Hyp :=
  match acc with
  | [] => [c]
  | h :: t =>
      if h.words = c.words ∧ h.node = c.node then
        { h with score := mergeFn h.score c.score } :: t
      else h :: addCandidate mergeFn t c

/-- Modelled from the spec: one timestep of `decodeChunk` — per parent at
most `beamSizeToken` best extensions, merge of candidates sharing a
(trie position, LM state), global score ranking keeping the top
`beamSize`, discarding scores below `bestScore − beamThreshold`, and the
degenerate-case reseed with a fresh empty hypothesis when the beam
empties. -/
def decodeStep (ctx : DecodeContext) (opts : DecoderOptions)
    (beam : List Hyp) (em : List ℚ) : List Hyp :=
  let cands := beam.flatMap (fun h =>
    (sortHyps (hypExtensions ctx opts em h)).take opts.beamSizeToken.toNat)
  let merged := cands.foldl (addCandidate (ctx.merge opts.logAdd)) []
  let ranked := (sortHyps merged).take opts.beamSize.toNat
  let kept :=
    match ranked with
    | [] => []
    | best :: _ => ranked.filter (fun h => best.score - opts.beamThreshold ≤ h.score)
  if kept.isEmpty then [initialHyp] else kept

/-- Modelled from the spec: `decodeChunk` consumes one window's emissions
timestep by timestep. -/
def decodeChunk (ctx : DecodeContext) (opts : DecoderOptions)
    (beam : List Hyp) (wnd : Window) : List Hyp :=
  wnd.foldl (decodeStep ctx opts) beam

/-- The word sequence of the best live hypothesis (the beam is kept
score-descending, so its head is best). -/
def bestWords (beam : List Hyp) : List String :=
  match beam with
  | [] => []
  | h :: _ => h.words

/-- One emitted record of the streaming interface. -/
structure TranscriptRecord where
  startMs : Nat
  endMs : Nat
  text : String
deriving DecidableEq

/-- Modelled from the spec: the streaming pipeline's per-session state —
the live beam, the transcript already emitted, and the current stream
time. -/
structure PipeState where
  beam : List Hyp
  emitted : List String
  timeMs : Nat

/-- The pipeline state at session start: one empty root hypothesis,
nothing emitted, time zero. -/
def initialPipeState : PipeState :=
  { beam := [initialHyp], emitted := [], timeMs := 0 }

/-- Modelled from the spec: one window of the streaming pipeline — decode
the chunk, take the current best transcript, diff it against the
previously emitted transcript, and emit exactly one
`{startMs, endMs, text}` record holding the newly confirmed span (possibly
empty). -/
def processWindow (windowMs : Nat) (ctx : DecodeContext) (opts : DecoderOptions)
    (st : PipeState) (wnd : Window) : PipeState × TranscriptRecord :=
  let beam2 := decodeChunk ctx opts st.beam wnd
  let words := bestWords beam2
  let fresh := words.drop st.emitted.length
  ({ beam := beam2, emitted := words, timeMs := st.timeMs + windowMs },
   { startMs := st.timeMs, endMs := st.timeMs + windowMs,
     text := String.intercalate " " fresh })

/-- Modelled from the spec: the pipeline's window loop. -/
def runWindows (windowMs : Nat) (ctx : DecodeContext) (opts : DecoderOptions) :
    PipeState → List Window → PipeState × List TranscriptRecord
  | st, [] => (st, [])
  | st, wnd :: rest =>
      let step := processWindow windowMs ctx opts st wnd
      let tail := runWindows windowMs ctx opts step.1 rest
      (tail.1, step.2 :: tail.2)

/-- The example's fixed 500 ms streaming chunk duration. -/
def defaultChunkMs : Nat := 500

/-- Modelled from the spec: `audioStreamToWordsStream` (in
`inference/examples/AudioToWords.h`, not under src/) — the audio stream is
chunked and scored by the opaque DNN module (modelled as a function from
the audio byte stream to per-window emissions) and fed through the
streaming pipeline. -/
def audioStreamToWordsStream (audio : List Int)
    (dnnModule : List Int → List Window) (ctx : DecodeContext)
    (opts : DecoderOptions) (nTokens : Nat) : List TranscriptRecord :=
  let _ := nTokens
  (runWindows defaultChunkMs ctx opts initialPipeState (dnnModule audio)).2

/-- The program's observable environment: which paths open successfully,
the tokens file's lines, the decoder-options JSON, the bytes on standard
input, and the audio files' contents. -/
structure World where
  readable : String → Bool
  tokenLines : List String
  optionsJson : JsonObject
  stdinAudio : List Int
  audioFiles : String → Option (List Int)

/-- The tokens-file block in `main`: throws naming the tokens file's
resolved path when it cannot be opened, otherwise runs the `getline`
loop. -/
def tokensLoadCheck (w : World) (flags : Flags) : Except String (List String) :=
  if w.readable (GetInputFileFullPath flags flags.tokens_file) then
    Except.ok (loadTokensLoop w.tokenLines)
  else Except.error
    ("failed to open tokens file=" ++
      GetInputFileFullPath flags flags.tokens_file ++ " for reading")

/-- The decoder-options block in `main`: throws naming the options file's
resolved path when it cannot be opened, otherwise deserializes the ten
named fields. -/
def decoderOptionsLoadCheck (w : World) (flags : Flags) : Except String DecoderOptions :=
  if w.readable (GetInputFileFullPath flags flags.decoder_options_file) then
    loadDecoderOptions w.optionsJson
  else Except.error
    ("failed to open decoder options file=" ++
      GetInputFileFullPath flags flags.decoder_options_file ++ " for reading")

/-- The stdin-vs-file dispatch at the end of `main`: an empty
`input_audio_file` flag selects standard input, otherwise the resolved
audio file is opened (the source performs no open check here; a missing
file behaves as an empty stream). -/
def selectAudio (w : World) (flags : Flags) : List Int :=
  if flags.input_audio_file = "" then w.stdinAudio
  else (w.audioFiles (GetInputFileFullPath flags flags.input_audio_file)).getD []

/-- The example's `main`: load feature module, acoustic module, tokens and
decoder options (each failing fast with its message), construct the
decoder factory, then run `audioStreamToWordsStream` on the selected audio
source with the DNN module, factory, options and token count. -/
def runMain (w : World) (flags : Flags) (dnnModule : List Int → List Window)
    (loadFactory : DecoderFactoryArgs → DecodeContext) :
    Except String (List TranscriptRecord) := do
  featureLoadCheck w.readable flags
  acousticLoadCheck w.readable flags
  let tokens ← tokensLoadCheck w flags
  let opts ← decoderOptionsLoadCheck w flags
  let ctx := loadFactory (mainDecoderFactoryArgs flags)
  Except.ok (audioStreamToWordsStream (selectAudio w flags) dnnModule ctx opts tokens.length)

/-- Modelled from the spec: a decoding session — its private options and
pipeline state. Sessions share the factory's decode context read-only. -/
structure Session where
  opts : DecoderOptions
  st : PipeState

/-- Modelled from the spec: a session processing one window against the
shared factory; only the session's private state is replaced. -/
def sessionProcessWindow (factory : DecodeContext) (s : Session) (wnd : Window) : Session :=
  { s with st := (processWindow defaultChunkMs factory s.opts s.st wnd).1 }

/-- Modelled from the spec: the shared-immutable-factory /
private-mutable-session split — one frozen factory and the states of the
sessions sharing it. -/
structure SharedWorld where
  factory : DecodeContext
  sessions : List Session

/-- Applying one operation (session index, window) to the shared world:
the addressed session decodes the window against the shared factory. -/
def applySessionOp (w : SharedWorld) (op : Nat × Window) : SharedWorld :=
  { w with sessions :=
      w.sessions.mapIdx (fun j s =>
        if j = op.1 then sessionProcessWindow w.factory s op.2 else s) }

/-- Applying a whole interleaving of session operations. -/
def applySessionOps (w : SharedWorld) (ops : List (Nat × Window)) : SharedWorld :=
  ops.foldl applySessionOp w

/-- Modelled from the spec: the score-merge law for hypotheses converging
to the same (trie position, LM state) in `decodeChunk` (decoder core not
under src/), with float scores modelled as reals: with `logAdd` the scores
combine by the numerically-stable log-sum-exp
`max + log (1 + exp (min − max))`, otherwise by the maximum. -/
noncomputable def mergeScore (logAdd : Bool) (a b : ℝ) : ℝ :=
  if logAdd then max a b + Real.log (1 + Real.exp (min a b - max a b))
  else max a b

/-- A minimal decode context: empty lexicon, zero language model, maximum
merge. -/
def trivialCtx : DecodeContext :=
  { silId := 0, lexicon := [], lmScore := fun _ => 0,
    merge := fun _ a b => max a b }

/-- An environment in which every resource opens except the acoustic-model
file at its default resolved path. -/
def c1World : World :=
  { readable := fun p => if p = "./acoustic_model.bin" then false else true
    tokenLines := []
    optionsJson := []
    stdinAudio := []
    audioFiles := fun _ => none }

/-- The spec scenario's decode context: silence token id 0, lexicon
`{"uncle": [T1], "julia": [T2], "said": [T3]}` with token ids T1 = 1,
T2 = 2, T3 = 3, a uniform language model, maximum merge. -/
def demoCtx : DecodeContext :=
  { silId := 0
    lexicon := [("uncle", [1]), ("julia", [2]), ("said", [3])]
    lmScore := fun _ => 0
    merge := fun _ a b => max a b }

/-- The spec scenario's options: `beamSize = 10`, `beamSizeToken = 5`. -/
def demoOpts : DecoderOptions :=
  { beamSize := 10, beamSizeToken := 5, beamThreshold := 100,
    lmWeight := 0, wordScore := 1, unkScore := 0, silScore := 0,
    eosScore := 0, logAdd := false, criterionType := 0 }

/-- A silence-dominant emission over the four token ids. -/
def silenceDominant : List ℚ := [0, -10, -10, -10]

/-- An emission dominated by token T1, the pronunciation of "uncle". -/
def uncleDominant : List ℚ := [-10, 0, -10, -10]

/-- Three 500 ms windows: silence-dominant in [0, 500] and [500, 1000],
"uncle"-dominant in [1000, 1500]. -/
def demoWindows : List Window :=
  [[silenceDominant], [silenceDominant], [uncleDominant]]

/-- An environment in which every resource opens and the decoder options
deserialize successfully. -/
def c7World : World :=
  { readable := fun _ => true
    tokenLines := ["a", "b"]
    optionsJson := encodeDecoderOptions demoOpts
    stdinAudio := []
    audioFiles := fun _ => none }

/-- An environment whose audio file `./audio.wav` holds exactly the bytes
that are on standard input. -/
def c10World : World :=
  { readable := fun _ => true
    tokenLines := []
    optionsJson := encodeDecoderOptions demoOpts
    stdinAudio := [7]
    audioFiles := fun p => if p = "./audio.wav" then some [7] else none }

theorem loadTokensLoop_go (l : List String) :
    ∀ acc : List String,
      l.foldl (fun tokens line => tokens ++ [line]) acc = acc ++ l := by
  induction l with
  | nil => intro acc; simp
  | cons x xs ih => intro acc; simp [List.foldl, ih]

theorem loadTokensLoop_eq (l : List String) : loadTokensLoop l = l := by
  simpa [loadTokensLoop] using loadTokensLoop_go l []

theorem buildDictionary_go (l : List String) :
    ∀ (acc : List (String × Nat)) (n : Nat),
      (l.foldl
        (fun (a : List (String × Nat) × Nat) tok => (a.1 ++ [(tok, a.2)], a.2 + 1))
        (acc, n)).1
        = acc ++ (l.enumFrom n).map (fun p => (p.2, p.1)) := by
  induction l with
  | nil => intro acc n; simp
  | cons x xs ih => intro acc n; simp [List.foldl, List.enumFrom, ih]

theorem buildDictionary_eq (l : List String) :
    buildDictionary l = l.enum.map (fun p => (p.2, p.1)) := by
  simpa [buildDictionary, List.enum] using buildDictionary_go l [] 0

/-- C2: for hypotheses converging to the same (trie position, LM state) in
`decodeChunk`, the merged score is the log-sum-exp of the two scores when
`logAdd` is true, and their maximum when `logAdd` is false. -/
theorem c2_merge_law (a b : ℝ) :
    mergeScore true a b = Real.log (Real.exp a + Real.exp b) ∧
      mergeScore false a b = max a b := by
  refine ⟨?_, rfl⟩
  have hpos : (0 : ℝ) < 1 + Real.exp (min a b - max a b) := by positivity
  have key : Real.exp a + Real.exp b
      = Real.exp (max a b) * (1 + Real.exp (min a b - max a b)) := by
    rw [mul_add, mul_one, ← Real.exp_add]
    rcases le_total a b with h | h
    · rw [max_eq_right h, min_eq_left h]
      have h3 : b + (a - b) = a := by ring
      rw [h3, add_comm]
    · rw [max_eq_left h, min_eq_right h]
      have h3 : a + (b - a) = b := by ring
      rw [h3]
  simp only [mergeScore, if_true]
  rw [key, Real.log_mul (Real.exp_ne_zero _) (ne_of_gt hpos), Real.log_exp]

/-- C3: the streaming pipeline emits exactly one `{startMs, endMs, text}`
record per processed input window — never zero, never more than one. -/
theorem c3_one_record_per_window (windowMs : Nat) (ctx : DecodeContext)
    (opts : DecoderOptions) (st : PipeState) (windows : List Window) :
    (runWindows windowMs ctx opts st windows).2.length = windows.length := by
  induction windows generalizing st with
  | nil => rfl
  | cons wnd rest ih => simp [runWindows, ih]

/-- C4: the token on line `i` of the tokens file receives token id `i` in
the Dictionary, and the token count reported to the pipeline equals the
number of lines read. -/
theorem c4_tokens_line_ids (lines : List String) (i : Nat) :
    (loadTokensLoop lines).length = lines.length ∧
      (buildDictionary (loadTokensLoop lines))[i]? =
        lines[i]?.map (fun tok => (tok, i)) := by
  rw [loadTokensLoop_eq, buildDictionary_eq]
  refine ⟨rfl, ?_⟩
  rw [List.getElem?_map, List.getElem?_enum]
  cases lines[i]? <;> rfl

/-- C5: the `DecoderFactory` is constructed by a single call taking exactly
the seven inputs (tokens, lexicon, languageModel, transitions,
smearingMode, silenceToken, unkScoreOverride), and the smearing mode this
program supplies is `MAX`. -/
theorem c5_factory_seven_args_max_smearing (flags : Flags) :
    mainDecoderFactoryArgs flags =
      DecoderFactoryArgs.mk
        (GetInputFileFullPath flags flags.tokens_file)
        (GetInputFileFullPath flags flags.lexicon_file)
        (GetInputFileFullPath flags flags.language_model_file)
        [] SmearingMode.MAX flags.silence_token 0 ∧
      (mainDecoderFactoryArgs flags).smearingMode = SmearingMode.MAX :=
  ⟨rfl, rfl⟩

/-- C6: after construction the shared factory is never mutated — any
interleaving of window-decoding operations by any sessions leaves the
factory's state unchanged. -/
theorem c6_factory_never_mutated (w : SharedWorld) (ops : List (Nat × Window)) :
    (applySessionOps w ops).factory = w.factory := by
  induction ops generalizing w with
  | nil => rfl
  | cons op rest ih =>
      have h2 : applySessionOps w (op :: rest)
          = applySessionOps (applySessionOp w op) rest := rfl
      rw [h2, ih]
      rfl

/-- C9: the factory is always constructed with an empty transitions vector
and an unknown-word score override of 0; the loaded `unkScore` option is
not forwarded to the factory's `unkScoreOverride` parameter. -/
theorem c9_transitions_empty_unk_zero (flags : Flags) (opts : DecoderOptions) :
    (mainDecoderFactoryArgs flags).transitions = [] ∧
      (mainDecoderFactoryArgs flags).unkScoreOverride = 0 ∧
      (opts.unkScore ≠ 0 →
        (mainDecoderFactoryArgs flags).unkScoreOverride ≠ opts.unkScore) := by
  refine ⟨rfl, rfl, ?_⟩
  intro hne heq
  exact hne heq.symm

theorem c9_transitions_empty_unk_zero_witness :
    (mainDecoderFactoryArgs defaultFlags).unkScoreOverride ≠
      ({ beamSize := 10, beamSizeToken := 5, beamThreshold := 100,
         lmWeight := 1, wordScore := 0, unkScore := 5, silScore := 0,
         eosScore := 0, logAdd := false, criterionType := 0 } :
        DecoderOptions).unkScore :=
  (c9_transitions_empty_unk_zero defaultFlags _).2.2 (by norm_num)

/-- C1: the claim that every unopenable input resource produces a load-time
error naming the offending resource's path fails on the code: when the
acoustic-model file (and only it) cannot be opened, `main` throws an error
whose message names the feature-module file's resolved path instead of the
acoustic-model file's. -/
theorem c1_acoustic_error_misnames_path :
    runMain c1World defaultFlags (fun _ => []) (fun _ => trivialCtx) =
      Except.error
        "failed to open acoustic model file=./feature_extractor.bin for reading" ∧
    GetInputFileFullPath defaultFlags defaultFlags.acoustic_module_file =
      "./acoustic_model.bin" ∧
    "failed to open acoustic model file=./feature_extractor.bin for reading" ≠
      "failed to open acoustic model file=./acoustic_model.bin for reading" := by
  refine ⟨by with_unfolding_all rfl, by decide, by decide⟩

/-- C7: the decoder configuration consumed by the core consists of exactly
the ten fields `beamSize`, `beamSizeToken`, `beamThreshold`, `lmWeight`,
`wordScore`, `unkScore`, `silScore`, `eosScore`, `logAdd`,
`criterionType` — a ten-entry archive populates every field and round-trips
— and whenever `main` reaches decoding, the options passed to the pipeline
are exactly the fully-loaded ones. -/
theorem c7_decoder_options_ten_fields :
    (∀ o : DecoderOptions,
        loadDecoderOptions (encodeDecoderOptions o) = Except.ok o ∧
          (encodeDecoderOptions o).length = 10) ∧
      ∀ (w : World) (flags : Flags) (dnn : List Int → List Window)
        (lf : DecoderFactoryArgs → DecodeContext) (r : List TranscriptRecord),
        runMain w flags dnn lf = Except.ok r →
        ∃ opts : DecoderOptions,
          decoderOptionsLoadCheck w flags = Except.ok opts ∧
            r = audioStreamToWordsStream (selectAudio w flags) dnn
              (lf (mainDecoderFactoryArgs flags)) opts
              (loadTokensLoop w.tokenLines).length := by
  constructor
  · intro o; exact ⟨rfl, rfl⟩
  · intro w flags dnn lf r h
    unfold runMain at h
    cases hf : featureLoadCheck w.readable flags with
    | error e => rw [hf] at h; simp [Bind.bind, Except.bind] at h
    | ok u =>
    rw [hf] at h
    cases ha : acousticLoadCheck w.readable flags with
    | error e => rw [ha] at h; simp [Bind.bind, Except.bind] at h
    | ok u2 =>
    rw [ha] at h
    cases ht : tokensLoadCheck w flags with
    | error e => rw [ht] at h; simp [Bind.bind, Except.bind] at h
    | ok tokens =>
    rw [ht] at h
    cases ho : decoderOptionsLoadCheck w flags with
    | error e => rw [ho] at h; simp [Bind.bind, Except.bind] at h
    | ok opts =>
    rw [ho] at h
    simp only [Bind.bind, Except.bind] at h
    have htv : tokens = loadTokensLoop w.tokenLines := by
      unfold tokensLoadCheck at ht
      split at ht
      · exact ((Except.ok.injEq _ _).mp ht).symm
      · exact absurd ht (by simp)
    refine ⟨opts, rfl, ?_⟩
    cases h
    rw [htv]

theorem c7_decoder_options_ten_fields_witness :
    ∃ opts : DecoderOptions,
      decoderOptionsLoadCheck c7World defaultFlags = Except.ok opts ∧
        ([] : List TranscriptRecord) =
          audioStreamToWordsStream (selectAudio c7World defaultFlags)
            (fun _ => [])
            ((fun _ => trivialCtx) (mainDecoderFactoryArgs defaultFlags)) opts
            (loadTokensLoop c7World.tokenLines).length :=
  c7_decoder_options_ten_fields.2 c7World defaultFlags (fun _ => [])
    (fun _ => trivialCtx) [] (by with_unfolding_all rfl)

set_option maxRecDepth 100000 in
/-- C8: with `beamSize = 10`, `beamSizeToken = 5` and the lexicon
containing "uncle", "julia", "said", emissions whose dominant path spells
"uncle" in the window [1000, 1500] ms yield the record
`{1000, 1500, "uncle"}`, and silence-dominant emissions in [0, 500] and
[500, 1000] ms each yield a record with empty text. -/
theorem c8_scenario_uncle :
    (runWindows defaultChunkMs demoCtx demoOpts initialPipeState demoWindows).2 =
      [{ startMs := 0, endMs := 500, text := "" },
       { startMs := 500, endMs := 1000, text := "" },
       { startMs := 1000, endMs := 1500, text := "uncle" }] := by
  with_unfolding_all decide

/-- C10: an empty `input_audio_file` flag reads audio from standard input
and a non-empty one from the named file, both through the same
transcription call with the identical DNN module, factory, options and
token count; on the same audio byte stream the two paths produce the same
output. -/
theorem c10_stdin_file_equivalence (w : World) (flags : Flags) (f : String)
    (dnn : List Int → List Window) (lf : DecoderFactoryArgs → DecodeContext)
    (h1 : flags.input_audio_file = "") (h2 : f ≠ "")
    (h3 : w.audioFiles (GetInputFileFullPath flags f) = some w.stdinAudio) :
    runMain w { flags with input_audio_file := f } dnn lf =
      runMain w flags dnn lf := by
  simp only [GetInputFileFullPath] at h3
  simp only [runMain, featureLoadCheck, acousticLoadCheck, tokensLoadCheck,
    decoderOptionsLoadCheck, mainDecoderFactoryArgs, selectAudio,
    GetInputFileFullPath, h1, h2, h3, if_neg, if_pos, Option.getD_some,
    ite_self]

theorem c10_stdin_file_equivalence_witness :
    runMain c10World { defaultFlags with input_audio_file := "audio.wav" }
        (fun _ => []) (fun _ => trivialCtx) =
      runMain c10World defaultFlags (fun _ => []) (fun _ => trivialCtx) :=
  c10_stdin_file_equivalence c10World defaultFlags "audio.wav" (fun _ => [])
    (fun _ => trivialCtx) rfl (by decide) (by decide)

end W2L
